import Mathlib

/-!
Verification of the aggregation-and-scoring engine of the Rationality repository.

Shallow embedding conventions:
* Python floats are modelled as rationals `ℚ`; a Python `math.nan` result is
  modelled as `none` in an `Option ℚ` result (the embedded functions return
  `Option ℚ`, `none` standing for NaN).  Infinite floats are not representable
  in this model; guards of the source that can only fire on infinite inputs
  (the `best_ask_price == float("inf")` check of `calculate_mid_price`) are
  consequently vacuous here and noted where they occur.
* A JSON / dict field value is modelled by `PyNum`: a numeric value, a string
  that `float()` converts, or a value `float()` rejects; a missing key is
  `Option.none` around it.
* Raised exceptions are modelled by explicit result constructors.
-/

namespace Rationality

/-- Value found under a dict key of an order-book level: a Python int/float
(`num`), a string that `float()` accepts (`numStr`), or anything `float()`
raises on (`bad`). -/
inductive PyNum where
  | num (q : ℚ)
  | numStr (q : ℚ)
  | bad
deriving DecidableEq

/-- One order-book level, as consumed by `calculate_mid_price` and
`calculate_true_price` (src/backend/common/utils.py): a dict with optional
`price` and `size` keys (`none` = key absent). -/
structure Level where
  price : Option PyNum
  size : Option PyNum
deriving DecidableEq

/-- Semantics of `float(d.get(key, 0.0))` in the source: a missing key
defaults to `0.0`, numeric values and numeric strings convert, anything else
raises (`none`). -/
def float_of : Option PyNum → Option ℚ
  | none => some 0
  | some (PyNum.num q) => some q
  | some (PyNum.numStr q) => some q
  | some PyNum.bad => none

/-- Semantics of the `isinstance(d.get("price"), (int, float))` filter of
`calculate_mid_price`: only genuinely numeric values pass (numeric strings do
not). -/
def numeric_prices (l : List Level) : List ℚ :=
  l.filterMap fun lv =>
    match lv.price with
    | some (PyNum.num q) => some q
    | _ => none

/-- Python `max(...)` over the numeric bid prices; `none` when the generator is
empty (the `ValueError` path of `calculate_mid_price`). -/
def best_bid_price (bids : List Level) : Option ℚ :=
  match numeric_prices bids with
  | [] => none
  | x :: xs => some (xs.foldl max x)

/-- Python `min(...)` over the numeric ask prices; `none` when the generator is
empty. -/
def best_ask_price (asks : List Level) : Option ℚ :=
  match numeric_prices asks with
  | [] => none
  | x :: xs => some (xs.foldl min x)

/-- Embedding of `calculate_mid_price` (src/backend/common/utils.py, lines
24-39).  Returns `none` (NaN) when a side is empty, when a side has no
numeric price (the caught `ValueError`), or when the best bid price equals
`0.0`.  The companion guard of the source, `best_ask_price == float("inf")`, cannot
fire on rational inputs and has no counterpart here. -/
def calculate_mid_price (bids asks : List Level) : Option ℚ :=
  if bids = [] ∨ asks = [] then none
  else
    match best_bid_price bids, best_ask_price asks with
    | some bb, some ba => if bb = 0 then none else some ((bb + ba) / 2)
    | _, _ => none

/-- One loop iteration of `calculate_true_price`: the `(price * size, size)`
contribution of a level, `none` when `float()` raises on either field or when
the `price > 0 and volume > 0` test fails. -/
def level_term (lv : Level) : Option (ℚ × ℚ) :=
  match float_of lv.price, float_of lv.size with
  | some p, some s => if 0 < p ∧ 0 < s then some (p * s, s) else none
  | _, _ => none

/-- The contributions of both sides, bids first then asks, exactly as the two
loops of `calculate_true_price` accumulate them. -/
def book_terms (bids asks : List Level) : List (ℚ × ℚ) :=
  (bids ++ asks).filterMap level_term

/-- The `total_volume` accumulator of `calculate_true_price`. -/
def total_volume (bids asks : List Level) : ℚ :=
  ((book_terms bids asks).map Prod.snd).sum

/-- The `weighted_sum` accumulator of `calculate_true_price`. -/
def weighted_sum (bids asks : List Level) : ℚ :=
  ((book_terms bids asks).map Prod.fst).sum

/-- Embedding of `calculate_true_price` (src/backend/common/utils.py, lines
41-77): VWAP over all valid levels, clamped to `[0, 1]`; falls back to
`calculate_mid_price` (unclamped) when the total volume is zero. -/
def calculate_true_price (bids asks : List Level) : Option ℚ :=
  if total_volume bids asks = 0 then calculate_mid_price bids asks
  else some (max 0 (min 1 (weighted_sum bids asks / total_volume bids asks)))

/-- A price result is in the unit interval or NaN. -/
def resultInUnitOrNaN : Option ℚ → Prop
  | none => True
  | some q => 0 ≤ q ∧ q ≤ 1

instance : DecidablePred resultInUnitOrNaN := fun r =>
  match r with
  | none => isTrue trivial
  | some _ => inferInstanceAs (Decidable (_ ∧ _))

/-- Every price value `float()` can read off the level (numeric or numeric
string) lies in the unit interval. -/
def priceOk (lv : Level) : Bool :=
  match lv.price with
  | some (PyNum.num q) => decide (0 ≤ q ∧ q ≤ 1)
  | some (PyNum.numStr q) => decide (0 ≤ q ∧ q ≤ 1)
  | _ => true

/-- All levels of a side carry only unit-interval prices. -/
def pricesWithinUnit (l : List Level) : Prop :=
  ∀ lv ∈ l, priceOk lv = true

instance : DecidablePred pricesWithinUnit := fun l =>
  List.decidableBAll _ l

/-! ## RationalityMath: `calculate_brier_score` -/

/-- Result of `calculate_brier_score`: a raised `ValueError`, the NaN
degenerate case, or a numeric score. -/
inductive BrierResult where
  | validationError
  | nanResult
  | score (q : ℚ)
deriving DecidableEq

/-- The accumulation loop of `calculate_brier_score` over the paired inputs:
`none` when some pair raises (`prediction` outside `[0, 1]` or `outcome`
outside `\x7b0, 1\x7d`), otherwise the total squared error. -/
def brier_total : List (ℚ × ℤ) → Option ℚ
  | [] => some 0
  | (p, o) :: rest =>
    if ¬(0 ≤ p ∧ p ≤ 1) then none
    else if o ≠ 0 ∧ o ≠ 1 then none
    else (brier_total rest).map fun t => (p - (o : ℚ)) ^ 2 + t

/-- Embedding of `calculate_brier_score` (src/backend/common/utils.py, lines
79-109): `ValueError` on a length mismatch, NaN on empty input, `ValueError`
at the first out-of-domain prediction or outcome, otherwise the mean squared
error. -/
def calculate_brier_score (predictions : List ℚ) (outcomes : List ℤ) : BrierResult :=
  if predictions.length ≠ outcomes.length then BrierResult.validationError
  else if predictions = [] then BrierResult.nanResult
  else
    match brier_total (predictions.zip outcomes) with
    | none => BrierResult.validationError
    | some t => BrierResult.score (t / predictions.length)

/-! ## RationalityEngine: `calculate_historical_rationality` -/

/-- A historical trade as consumed by `calculate_historical_rationality`
(src/backend/common/models/rationality.py, class `Trade`). -/
structure Trade where
  makerAddress : String
  price : ℚ
  size : ℚ
  outcome : String
  timestamp : ℤ
deriving DecidableEq

/-- The metrics record produced by the rationality calculator
(src/backend/common/models/rationality.py, class `RationalityMetrics`), with
`perTraderScore` as an association list. -/
structure RationalityMetrics where
  marketId : String
  computedAt : ℤ
  overallScore : ℚ
  perTraderScore : List (String × ℚ)
deriving DecidableEq

/-- The unique traders of a trade list, as the expression
`set(trade.makerAddress for trade in trades)` of the source. -/
def tradersOf (trades : List Trade) : List String :=
  (trades.map Trade.makerAddress).dedup

/-- Embedding of `SimpleRationalityCalculator._get_trader_market_data`
(src/backend/common/services/rationality_calculator.py, lines 122-179) for
one trader: given the resolved outcome of the market (`none` when the market is
absent, unresolved, or the DB read fails) and the raw prediction
rows of the trader, keep the unit-interval predictions and pair each with the outcome;
yield `([], [])` when nothing valid remains. -/
def get_trader_market_data (outcome? : Option ℤ) (raw : List ℚ) : List ℚ × List ℤ :=
  match outcome? with
  | none => ([], [])
  | some o =>
    let ps := raw.filter fun p => decide (0 ≤ p ∧ p ≤ 1)
    if ps = [] then ([], []) else (ps, List.replicate ps.length o)

/-- One iteration of the trader loop of `calculate_historical_rationality`,
applied to the `(predictions, outcomes)` pair fetched for the trader: the
score recorded in `trader_scores` for the trader, and `some` of the clamped
score exactly when it is also appended to `valid_scores`.  Traders with no
predictions or mismatched data, a `ValueError` from the Brier calculation,
or a NaN score get the default `0.0` and are not appended. -/
def trader_score_entry (data : List ℚ × List ℤ) : ℚ × Option ℚ :=
  if data.1 = [] ∨ data.1.length ≠ data.2.length then (0, none)
  else
    match calculate_brier_score data.1 data.2 with
    | BrierResult.validationError => (0, none)
    | BrierResult.nanResult => (0, none)
    | BrierResult.score b => (max 0 (min 1 b), some (max 0 (min 1 b)))

/-- Embedding of `SimpleRationalityCalculator.calculate_historical_rationality`
(src/backend/common/services/rationality_calculator.py, lines 181-245).
`outcome?` and `raw` stand for the database reads performed by
`_get_trader_market_data`; `now` stands for the wall clock. -/
def calculate_historical_rationality (market_id : String) (now : ℤ)
    (trades : List Trade) (outcome? : Option ℤ) (raw : String → List ℚ) :
    RationalityMetrics :=
  if trades = [] then
    ⟨market_id, now, 0, []⟩
  else
    let ts := tradersOf trades
    let perTrader := ts.map fun t =>
      (t, (trader_score_entry (get_trader_market_data outcome? (raw t))).1)
    let valid := ts.filterMap fun t =>
      (trader_score_entry (get_trader_market_data outcome? (raw t))).2
    let overall : ℚ := if valid = [] then 0 else valid.sum / valid.length
    ⟨market_id, now, overall, perTrader⟩

/-- Spec-side reading of a scoreable trader (claim wording): a trader with at
least one valid prediction whose Brier score computes, contributing that
clamped score to the aggregate; unscoreable traders contribute nothing. -/
def scoreableBrier : List ℚ × List ℤ → Option ℚ
  | ([], _) => none
  | (ps, os) =>
    match calculate_brier_score ps os with
    | BrierResult.score b => some (max 0 (min 1 b))
    | _ => none

/-! ## AlertEngine: `check_alert_rule` -/

/-- An alert rule as consumed by `check_alert_rule`
(src/backend/common/models.py, class `AlertRule`); `condition` stays a raw
string because `check_alert_rule` compares it against string literals. -/
structure AlertRule where
  id : String
  name : String
  market_id : String
  email : String
  threshold : ℚ
  condition : String
deriving DecidableEq

/-- The latest `TruePrice` row read by `check_alert_rule`; `value` and
`mid_price` are read defensively as possibly-`None` attributes even though
the schema (src/backend/common/db.py, class `TruePrice`) declares both
columns `nullable=False`. -/
structure TruePriceRecord where
  value : Option ℚ
  mid_price : Option ℚ
deriving DecidableEq

/-- Trigger decision of `check_alert_rule` (src/backend/alerts/main.py, lines
87-154): skip when the latest record is absent, when `mid_price` is `None`
or `0`, or when `value` is `None`; otherwise compare the relative difference
against the threshold of the rule according to its condition string. -/
def check_alert_rule (latest : Option TruePriceRecord) (rule : AlertRule) : Bool :=
  match latest with
  | none => false
  | some r =>
    match r.mid_price, r.value with
    | some m, some v =>
      if m = 0 then false
      else
        let difference := |v - m| / m
        decide ((rule.condition = "above" ∧ difference > rule.threshold) ∨
          (rule.condition = "below" ∧ difference < rule.threshold))
    | _, _ => false

/-- Observable side effects of the triggered branch of `check_alert_rule`, in
program order. -/
inductive AlertEvent where
  | scheduleEmailTask
  | dbAddNotification
  | dbCommit
  | dbRollback
deriving DecidableEq

/-- Side-effect trace of one `check_alert_rule` call (src/backend/alerts/
main.py, lines 119-154): on trigger, the email task is created first
(line 131), then the notification row is added and committed (lines 134-143);
a failed commit rolls back (`commitOk = false`). -/
def check_alert_rule_events (latest : Option TruePriceRecord) (rule : AlertRule)
    (commitOk : Bool) : List AlertEvent :=
  if check_alert_rule latest rule then
    AlertEvent.scheduleEmailTask :: AlertEvent.dbAddNotification ::
      (if commitOk then [AlertEvent.dbCommit] else [AlertEvent.dbRollback])
  else []

/-! ## NotificationSink: `send_alert_email` -/

/-- Outcome of one SMTP send attempt inside `send_alert_email`: success, a
connection-level `SMTPServerDisconnected`, any other protocol-level
`SMTPException`, or a non-SMTP exception. -/
inductive SmtpOutcome where
  | sent
  | serverDisconnected
  | smtpError
  | otherError
deriving DecidableEq

/-- The `while retries <= max_retries` loop of `send_alert_email`
(src/backend/alerts/main.py, lines 156-233).  `attempt k` is the outcome of
the attempt made while `retries = k`.  Both SMTP exception handlers increment
`retries`, return `False` once `retries > max_retries`, and otherwise sleep
`delay` seconds and double it; a non-SMTP exception returns `False` at once.
The fuel argument only bounds the recursion and is chosen large enough that
it never runs out for `max_retries = 3`. -/
def send_alert_email_loop (attempt : Nat → SmtpOutcome) (maxRetries : Nat) :
    Nat → Nat → Nat → List Nat → Bool × List Nat
  | 0, _, _, sleeps => (false, sleeps)
  | fuel + 1, retries, delay, sleeps =>
    match attempt retries with
    | SmtpOutcome.sent => (true, sleeps)
    | SmtpOutcome.otherError => (false, sleeps)
    | _ =>
      if retries + 1 > maxRetries then (false, sleeps)
      else send_alert_email_loop attempt maxRetries fuel (retries + 1) (delay * 2)
        (sleeps ++ [delay])

/-- Embedding of `send_alert_email` with its default parameters
(`max_retries = 3`, `initial_delay = 1`): the returned flag and the list of
backoff sleeps taken, in order. -/
def send_alert_email (attempt : Nat → SmtpOutcome) : Bool × List Nat :=
  send_alert_email_loop attempt 3 5 0 1 []

/-- An SMTP attempt outcome that the retry handlers of the source catch. -/
def isSmtpFailure : SmtpOutcome → Bool
  | SmtpOutcome.serverDisconnected => true
  | SmtpOutcome.smtpError => true
  | _ => false

/-! ## MarketDataSource: `_retry_request` and `fetch_active_orders` -/

/-- Outcome of one attempt of the wrapped request inside `_retry_request`: a
successful payload, a transient `httpx.RequestError`, or any other
exception. -/
inductive FetchOutcome (α : Type) where
  | payload (a : α)
  | requestError
  | otherError
deriving DecidableEq

/-- The exception `_retry_request` re-raises: the transient error after
exhaustion, or the immediately propagated non-transient one. -/
inductive FetchError where
  | transient
  | nonTransient
deriving DecidableEq

/-- The `while retries < max_retries` loop of `_retry_request`
(src/backend/common/services/polymarket_client.py, lines 20-37) with its
default parameters (`max_retries = 3`, `initial_delay = 1`,
`backoff_factor = 2`).  `trace k` is the outcome of attempt `k`; the result
pairs the returned payload or re-raised exception with the backoff sleeps
taken.  The fuel argument only bounds the recursion and never runs out for
`max_retries = 3`. -/
def retry_request_loop {α : Type} (trace : Nat → FetchOutcome α) :
    Nat → Nat → Nat → List Nat → Except FetchError α × List Nat
  | 0, _, _, sleeps => (Except.error FetchError.transient, sleeps)
  | fuel + 1, retries, delay, sleeps =>
    match trace retries with
    | FetchOutcome.payload a => (Except.ok a, sleeps)
    | FetchOutcome.otherError => (Except.error FetchError.nonTransient, sleeps)
    | FetchOutcome.requestError =>
      if retries + 1 ≥ 3 then (Except.error FetchError.transient, sleeps)
      else retry_request_loop trace fuel (retries + 1) (delay * 2) (sleeps ++ [delay])

/-- Embedding of `_retry_request` with its default parameters. -/
def retry_request {α : Type} (trace : Nat → FetchOutcome α) :
    Except FetchError α × List Nat :=
  retry_request_loop trace 4 0 1 []

/-- An active order as parsed by `fetch_active_orders`
(src/backend/common/models/rationality.py, class `Order`). -/
structure Order where
  makerAddress : String
  price : ℚ
  size : ℚ
  side : String
  outcome : String
  timestamp : ℤ
deriving DecidableEq

/-- Embedding of `PolymarketRestClient.fetch_active_orders`
(src/backend/common/services/polymarket_client.py, lines 52-63): the retried
fetch, with any escaping exception caught and turned into the empty list. -/
def fetch_active_orders (trace : Nat → FetchOutcome (List Order)) :
    List Order × List Nat :=
  match retry_request trace with
  | (Except.ok a, sleeps) => (a, sleeps)
  | (Except.error _, sleeps) => ([], sleeps)

/-! ## Concurrency model of the two cycle loops -/

/-- The per-rule tasks dispatched by one `check_alerts` cycle
(src/backend/alerts/main.py, lines 63-83): one session is acquired per cycle
(`db = next(get_db())`, line 64) and that same session is passed to every
concurrently gathered `check_alert_rule` task (line 72).  Each task is paired
with the identifier of the session it runs on. -/
def check_alerts_cycle_tasks (rules : List AlertRule) (sessionId : Nat) :
    List (AlertRule × Nat) :=
  rules.map fun r => (r, sessionId)

/-- The per-market tasks dispatched by one `aggregate_market_data` cycle
(src/backend/aggregator/main.py, lines 86-107): one session per cycle
(line 87), shared by every concurrently gathered `process_market` task
(line 95). -/
def aggregate_cycle_tasks (marketIds : List String) (sessionId : Nat) :
    List (String × Nat) :=
  marketIds.map fun m => (m, sessionId)

/-! ## Lemmas about the Brier accumulation loop -/

lemma brier_total_eq_none_iff (l : List (ℚ × ℤ)) :
    brier_total l = none ↔
      ∃ pr ∈ l, ¬(0 ≤ pr.1 ∧ pr.1 ≤ 1) ∨ (pr.2 ≠ 0 ∧ pr.2 ≠ 1) := by
  induction l with
  | nil => simp [brier_total]
  | cons hd tl ih =>
    rcases hd with ⟨p, o⟩
    by_cases hp : 0 ≤ p ∧ p ≤ 1
    · by_cases ho : o ≠ 0 ∧ o ≠ 1
      · simp only [brier_total, if_neg (not_not_intro hp), if_pos ho]
        constructor
        · intro _
          exact ⟨(p, o), List.mem_cons_self _ _, Or.inr ho⟩
        · intro _
          trivial
      · simp only [brier_total, if_neg (not_not_intro hp), if_neg ho,
          Option.map_eq_none', ih]
        constructor
        · rintro ⟨pr, hmem, hbad⟩
          exact ⟨pr, List.mem_cons_of_mem _ hmem, hbad⟩
        · rintro ⟨pr, hmem, hbad⟩
          rcases List.mem_cons.mp hmem with heq | hmem2
          · subst heq
            rcases hbad with h | h
            · exact absurd hp h
            · exact absurd h ho
          · exact ⟨pr, hmem2, hbad⟩
    · simp only [brier_total, if_pos hp]
      constructor
      · intro _
        exact ⟨(p, o), List.mem_cons_self _ _, Or.inl hp⟩
      · intro _
        trivial

lemma brier_total_eq_some (l : List (ℚ × ℤ)) (t : ℚ)
    (h : brier_total l = some t) :
    t = (l.map fun pr => (pr.1 - (pr.2 : ℚ)) ^ 2).sum := by
  induction l generalizing t with
  | nil =>
    simp [brier_total] at h
    simp [← h]
  | cons hd tl ih =>
    rcases hd with ⟨p, o⟩
    by_cases hp : 0 ≤ p ∧ p ≤ 1
    · by_cases ho : o ≠ 0 ∧ o ≠ 1
      · simp [brier_total, if_neg (not_not_intro hp), if_pos ho] at h
      · simp only [brier_total, if_neg (not_not_intro hp), if_neg ho] at h
        rcases htl : brier_total tl with _ | t2
        · rw [htl] at h
          simp at h
        · rw [htl] at h
          simp only [Option.map_some', Option.some_inj] at h
          rw [← h, ih t2 htl]
          simp
    · simp [brier_total] at h
      exact absurd h.1 hp

lemma bad_entry_zip_iff (ps : List ℚ) (os : List ℤ) (h : ps.length = os.length) :
    (∃ pr ∈ ps.zip os, ¬(0 ≤ pr.1 ∧ pr.1 ≤ 1) ∨ (pr.2 ≠ 0 ∧ pr.2 ≠ 1)) ↔
      (∃ p ∈ ps, ¬(0 ≤ p ∧ p ≤ 1)) ∨ (∃ o ∈ os, o ≠ 0 ∧ o ≠ 1) := by
  constructor
  · rintro ⟨pr, hmem, hbad⟩
    rcases List.of_mem_zip hmem with ⟨hp, ho⟩
    rcases hbad with h1 | h1
    · exact Or.inl ⟨pr.1, hp, h1⟩
    · exact Or.inr ⟨pr.2, ho, h1⟩
  · rintro (⟨p, hp, hbad⟩ | ⟨o, ho, hbad⟩)
    · have hps : (ps.zip os).map Prod.fst = ps := List.map_fst_zip ps os (le_of_eq h)
      rw [← hps] at hp
      rcases List.mem_map.mp hp with ⟨pr, hmem, hfst⟩
      refine ⟨pr, hmem, Or.inl ?_⟩
      rw [hfst]
      exact hbad
    · have hos : (ps.zip os).map Prod.snd = os := List.map_snd_zip ps os (ge_of_eq h)
      rw [← hos] at ho
      rcases List.mem_map.mp ho with ⟨pr, hmem, hsnd⟩
      refine ⟨pr, hmem, Or.inr ?_⟩
      rw [hsnd]
      exact hbad

/-- C3: `calculate_brier_score` raises a `ValueError` exactly on a length
mismatch or an out-of-domain prediction or outcome, returns NaN exactly when
both inputs are empty, and otherwise returns the mean of the squared
differences between predictions and outcomes. -/
theorem calculate_brier_score_spec (ps : List ℚ) (os : List ℤ) :
    (calculate_brier_score ps os = BrierResult.validationError ↔
      ps.length ≠ os.length ∨ (∃ p ∈ ps, ¬(0 ≤ p ∧ p ≤ 1)) ∨
        (∃ o ∈ os, o ≠ 0 ∧ o ≠ 1))
    ∧ (calculate_brier_score ps os = BrierResult.nanResult ↔ ps = [] ∧ os = [])
    ∧ (∀ q, calculate_brier_score ps os = BrierResult.score q →
        q = ((ps.zip os).map fun pr => (pr.1 - (pr.2 : ℚ)) ^ 2).sum / ps.length) := by
  by_cases hlen : ps.length = os.length
  · by_cases hnil : ps = []
    · have honil : os = [] := by
        rw [hnil] at hlen
        exact List.eq_nil_of_length_eq_zero hlen.symm
      subst hnil
      subst honil
      refine ⟨?_, ?_, ?_⟩
      · simp [calculate_brier_score]
      · simp [calculate_brier_score]
      · intro q hq
        simp [calculate_brier_score] at hq
    · have hbranch : calculate_brier_score ps os =
          match brier_total (ps.zip os) with
          | none => BrierResult.validationError
          | some t => BrierResult.score (t / ps.length) := by
        simp [calculate_brier_score, hlen, hnil]
      refine ⟨?_, ?_, ?_⟩
      · rw [hbranch]
        rcases hb : brier_total (ps.zip os) with _ | t
        · simp only [true_iff]
          rw [brier_total_eq_none_iff] at hb
          exact Or.inr ((bad_entry_zip_iff ps os hlen).mp hb)
        · simp only [reduceCtorEq, false_iff]
          rintro (h | hbad | hbad)
          · exact h hlen
          · have hnone : brier_total (ps.zip os) = none :=
              (brier_total_eq_none_iff _).mpr
                ((bad_entry_zip_iff ps os hlen).mpr (Or.inl hbad))
            rw [hb] at hnone
            exact Option.noConfusion hnone
          · have hnone : brier_total (ps.zip os) = none :=
              (brier_total_eq_none_iff _).mpr
                ((bad_entry_zip_iff ps os hlen).mpr (Or.inr hbad))
            rw [hb] at hnone
            exact Option.noConfusion hnone
      · rw [hbranch]
        rcases hb : brier_total (ps.zip os) with _ | t
        · simp [hnil]
        · simp [hnil]
      · intro q hq
        rw [hbranch] at hq
        rcases hb : brier_total (ps.zip os) with _ | t
        · rw [hb] at hq
          exact absurd hq (by simp)
        · rw [hb] at hq
          simp only [BrierResult.score.injEq] at hq
          rw [← hq, brier_total_eq_some (ps.zip os) t hb]
  · refine ⟨?_, ?_, ?_⟩
    · simp [calculate_brier_score, hlen]
    · constructor
      · intro h
        simp [calculate_brier_score, hlen] at h
      · rintro ⟨h1, h2⟩
        subst h1
        subst h2
        simp at hlen
    · intro q hq
      simp [calculate_brier_score, hlen] at hq

/-- C3 witness: the spec scenario.  Predictions `[0.8, 0.3]` against outcomes
`[1, 0]` give the score `0.065 = 13/200`, which the theorem identifies with
the mean squared difference. -/
theorem calculate_brier_score_spec_case :
    calculate_brier_score [4/5, 3/10] [1, 0] = BrierResult.score (13/200)
    ∧ (13/200 : ℚ) =
        (([(4/5 : ℚ), 3/10].zip [(1 : ℤ), 0]).map
          fun pr => (pr.1 - (pr.2 : ℚ)) ^ 2).sum / ([(4/5 : ℚ), 3/10].length) := by
  have hres : calculate_brier_score [4/5, 3/10] [1, 0] = BrierResult.score (13/200) := by
    simp [calculate_brier_score, brier_total]
    norm_num
  exact ⟨hres, (calculate_brier_score_spec [4/5, 3/10] [1, 0]).2.2 (13/200) hres⟩

/-- C4 (amended): `send_alert_email` sleeps at most 3 times, with the backoff
delays a prefix of `1, 2, 4` seconds; it retries after every SMTP exception
(connection-level and protocol-level alike), returns failure rather than
raising once the retry budget is exhausted, and does not retry non-SMTP
errors. -/
theorem send_alert_email_retry_budget (attempt : Nat → SmtpOutcome) :
    (send_alert_email attempt).2.length ≤ 3
    ∧ (send_alert_email attempt).2 = [1, 2, 4].take (send_alert_email attempt).2.length
    ∧ (isSmtpFailure (attempt 0) = true → isSmtpFailure (attempt 1) = true →
        isSmtpFailure (attempt 2) = true → isSmtpFailure (attempt 3) = true →
        send_alert_email attempt = (false, [1, 2, 4]))
    ∧ (attempt 0 = SmtpOutcome.otherError → send_alert_email attempt = (false, [])) := by
  cases h0 : attempt 0 <;> cases h1 : attempt 1 <;> cases h2 : attempt 2 <;>
    cases h3 : attempt 3 <;>
    simp_all [send_alert_email, send_alert_email_loop, isSmtpFailure]

/-- C4 witness: when every attempt fails with a connection-level SMTP error,
the send returns failure after exactly the three backoff sleeps of 1, 2 and
4 seconds. -/
theorem send_alert_email_retry_budget_case :
    send_alert_email (fun _ => SmtpOutcome.serverDisconnected) = (false, [1, 2, 4]) :=
  (send_alert_email_retry_budget fun _ => SmtpOutcome.serverDisconnected).2.2.1
    rfl rfl rfl rfl

/-- C4 counterexample: a protocol-level `SMTPException` on the first attempt
IS retried — the second attempt succeeds after a 1-second backoff sleep —
contradicting the claim that only connection-level failures are retried. -/
theorem send_alert_email_retries_protocol_errors :
    send_alert_email
      (fun k => if k = 0 then SmtpOutcome.smtpError else SmtpOutcome.sent) =
      (true, [1]) := by
  decide

/-- C8: the retried fetch makes at most 3 attempts (the result depends only
on the first three attempt outcomes), its backoff sleeps are a prefix of
`1, 2` time units, a transient-transient-success trace yields the successful
payload after a total backoff of `1 + 2`, exhaustion of the budget yields the
empty list rather than raising, and a non-transient failure is not retried. -/
theorem fetch_active_orders_retry (trace trace2 : Nat → FetchOutcome (List Order)) :
    ((∀ i < 3, trace i = trace2 i) →
      fetch_active_orders trace = fetch_active_orders trace2)
    ∧ (fetch_active_orders trace).2 =
        [1, 2].take (fetch_active_orders trace).2.length
    ∧ (∀ a, trace 0 = FetchOutcome.requestError →
        trace 1 = FetchOutcome.requestError → trace 2 = FetchOutcome.payload a →
        fetch_active_orders trace = (a, [1, 2]))
    ∧ ((∀ i < 3, trace i = FetchOutcome.requestError) →
        fetch_active_orders trace = ([], [1, 2]))
    ∧ (trace 0 = FetchOutcome.otherError → fetch_active_orders trace = ([], [])) := by
  refine ⟨?_, ?_, ?_, ?_, ?_⟩
  · intro h
    have e0 := h 0 (by norm_num)
    have e1 := h 1 (by norm_num)
    have e2 := h 2 (by norm_num)
    cases h0 : trace 0 <;> cases h1 : trace 1 <;> cases h2 : trace 2 <;>
      simp_all [fetch_active_orders, retry_request, retry_request_loop]
  · cases h0 : trace 0 <;> cases h1 : trace 1 <;> cases h2 : trace 2 <;>
      simp_all [fetch_active_orders, retry_request, retry_request_loop]
  · intro a h0 h1 h2
    simp_all [fetch_active_orders, retry_request, retry_request_loop]
  · intro h
    have h0 := h 0 (by norm_num)
    have h1 := h 1 (by norm_num)
    have h2 := h 2 (by norm_num)
    simp_all [fetch_active_orders, retry_request, retry_request_loop]
  · intro h0
    simp_all [fetch_active_orders, retry_request, retry_request_loop]

/-- C8 witness: the spec scenario.  Two transient failures followed by a
successful third attempt deliver the fetched orders to the caller with a
total backoff of `1 + 2` time units; and a fully failing trace yields the
empty list with the same backoff. -/
theorem fetch_active_orders_retry_case :
    fetch_active_orders
      (fun k => if k ≤ 1 then FetchOutcome.requestError
        else FetchOutcome.payload [⟨"0x123", 1, 1, "BUY", "YES", 0⟩]) =
      ([⟨"0x123", 1, 1, "BUY", "YES", 0⟩], [1, 2])
    ∧ fetch_active_orders (fun _ => FetchOutcome.requestError) = ([], [1, 2]) :=
  ⟨(fetch_active_orders_retry
        (fun k => if k ≤ 1 then FetchOutcome.requestError
          else FetchOutcome.payload [⟨"0x123", 1, 1, "BUY", "YES", 0⟩])
        (fun _ => FetchOutcome.requestError)).2.2.1
      [⟨"0x123", 1, 1, "BUY", "YES", 0⟩] (by decide) (by decide) (by decide),
    (fetch_active_orders_retry (fun _ => FetchOutcome.requestError)
        (fun _ => FetchOutcome.requestError)).2.2.2.1
      (fun _ _ => rfl)⟩

/-- C9 (amended): every per-rule task of an alert cycle and every per-market
task of an aggregation cycle runs on the single session acquired for that
cycle — the units of work within a cycle share one session instead of each
acquiring its own. -/
theorem cycle_tasks_use_cycle_session (rules : List AlertRule)
    (marketIds : List String) (sessionId : Nat) :
    (∀ p ∈ check_alerts_cycle_tasks rules sessionId, p.2 = sessionId)
    ∧ (∀ p ∈ aggregate_cycle_tasks marketIds sessionId, p.2 = sessionId) := by
  constructor
  · intro p hp
    rcases List.mem_map.mp hp with ⟨r, _, hr⟩
    rw [← hr]
  · intro p hp
    rcases List.mem_map.mp hp with ⟨m, _, hm⟩
    rw [← hm]

/-- C9 witness: in a cycle over one rule and one market with session `7`,
the dispatched task indeed carries session `7`. -/
theorem cycle_tasks_use_cycle_session_case :
    ((⟨"r1", "n1", "m1", "e1", 1, "above"⟩, 7) : AlertRule × Nat).2 = 7 :=
  (cycle_tasks_use_cycle_session [⟨"r1", "n1", "m1", "e1", 1, "above"⟩] ["m1"] 7).1
    (⟨"r1", "n1", "m1", "e1", 1, "above"⟩, 7) (by decide)

/-- C9 counterexample: two distinct alert rules dispatched concurrently in
the same cycle share session `0`, refuting the claim that no two concurrent
units within a cycle share a persistence session. -/
theorem cycle_tasks_share_one_session :
    (⟨"r1", "n1", "m1", "e1", 1, "above"⟩ : AlertRule) ≠
      ⟨"r2", "n2", "m2", "e2", 2, "below"⟩
    ∧ ((⟨"r1", "n1", "m1", "e1", 1, "above"⟩ : AlertRule), 0) ∈
        check_alerts_cycle_tasks
          [⟨"r1", "n1", "m1", "e1", 1, "above"⟩, ⟨"r2", "n2", "m2", "e2", 2, "below"⟩] 0
    ∧ ((⟨"r2", "n2", "m2", "e2", 2, "below"⟩ : AlertRule), 0) ∈
        check_alerts_cycle_tasks
          [⟨"r1", "n1", "m1", "e1", 1, "above"⟩, ⟨"r2", "n2", "m2", "e2", 2, "below"⟩] 0 := by
  refine ⟨by decide, ?_, ?_⟩
  · simp [check_alerts_cycle_tasks]
  · simp [check_alerts_cycle_tasks]

/-- C6: `check_alert_rule` does not trigger when the latest true-price record
is absent or its `mid_price` is `None` or zero (or its `value` is `None` — a
defensive check that cannot fire because the schema declares the column
non-nullable); otherwise it triggers exactly when the relative difference
`|true_price − mid_price| / mid_price` is above the threshold for an "above"
rule, or below it for a "below" rule. -/
theorem check_alert_rule_spec (latest : Option TruePriceRecord) (rule : AlertRule) :
    (latest = none → check_alert_rule latest rule = false)
    ∧ (∀ r, latest = some r →
        r.mid_price = none ∨ r.mid_price = some 0 ∨ r.value = none →
        check_alert_rule latest rule = false)
    ∧ (∀ r v m, latest = some r → r.value = some v → r.mid_price = some m →
        m ≠ 0 →
        (check_alert_rule latest rule = true ↔
          (rule.condition = "above" ∧ |v - m| / m > rule.threshold) ∨
          (rule.condition = "below" ∧ |v - m| / m < rule.threshold))) := by
  refine ⟨?_, ?_, ?_⟩
  · intro h
    rw [h]
    rfl
  · rintro r rfl (hm | hm | hv)
    · simp [check_alert_rule, hm]
    · rcases hval : r.value with _ | v
      · simp [check_alert_rule, hm, hval]
      · simp [check_alert_rule, hm, hval]
    · rcases hmp : r.mid_price with _ | m
      · simp [check_alert_rule, hmp]
      · simp [check_alert_rule, hmp, hv]
  · rintro r v m rfl hv hm hm0
    simp [check_alert_rule, hv, hm, hm0]

/-- C6 witness: the spec scenario.  With threshold `0.05` and condition
"above", true price `0.70` against mid price `0.60` triggers
(difference `1/6 > 1/20`) while true price `0.61` does not
(difference `1/60 < 1/20`). -/
theorem check_alert_rule_spec_case :
    check_alert_rule (some ⟨some (7/10), some (3/5)⟩)
      ⟨"r", "n", "m", "e", 1/20, "above"⟩ = true
    ∧ ¬(check_alert_rule (some ⟨some (61/100), some (3/5)⟩)
      ⟨"r", "n", "m", "e", 1/20, "above"⟩ = true) := by
  constructor
  · refine ((check_alert_rule_spec _ _).2.2 ⟨some (7/10), some (3/5)⟩ (7/10) (3/5)
      rfl rfl rfl (by norm_num)).mpr (Or.inl ⟨rfl, ?_⟩)
    rw [show |(7:ℚ)/10 - 3/5| = 7/10 - 3/5 by rw [abs_of_nonneg]; norm_num]
    norm_num
  · intro htrig
    have h := ((check_alert_rule_spec _ _).2.2 ⟨some (61/100), some (3/5)⟩
      (61/100) (3/5) rfl rfl rfl (by norm_num)).mp htrig
    rcases h with ⟨_, hgt⟩ | ⟨hcond, _⟩
    · rw [show |(61:ℚ)/100 - 3/5| = 61/100 - 3/5 by rw [abs_of_nonneg]; norm_num]
        at hgt
      norm_num at hgt
    · exact absurd hcond (by decide)

/-- C10: whenever `check_alert_rule` triggers, the email task is scheduled
first — before the notification row is added and committed — so a failed
commit (rolled back) still leaves the email send attempted: dispatching the
email is not conditioned on the record having been persisted. -/
theorem alert_email_scheduled_before_write (latest : Option TruePriceRecord)
    (rule : AlertRule) (commitOk : Bool)
    (h : check_alert_rule latest rule = true) :
    (check_alert_rule_events latest rule commitOk).head? =
      some AlertEvent.scheduleEmailTask
    ∧ (commitOk = false →
        AlertEvent.scheduleEmailTask ∈ check_alert_rule_events latest rule commitOk
        ∧ AlertEvent.dbCommit ∉ check_alert_rule_events latest rule commitOk
        ∧ AlertEvent.dbRollback ∈ check_alert_rule_events latest rule commitOk) := by
  constructor
  · simp [check_alert_rule_events, h]
  · rintro rfl
    simp [check_alert_rule_events, h]

/-- C10 witness: for a triggering record whose notification commit fails, the
trace still begins with the scheduled email task and contains the rollback
but no commit. -/
theorem alert_email_scheduled_before_write_case :
    (check_alert_rule_events (some ⟨some (7/10), some (3/5)⟩)
        ⟨"r", "n", "m", "e", 1/20, "above"⟩ false).head? =
      some AlertEvent.scheduleEmailTask
    ∧ AlertEvent.scheduleEmailTask ∈
        check_alert_rule_events (some ⟨some (7/10), some (3/5)⟩)
          ⟨"r", "n", "m", "e", 1/20, "above"⟩ false
    ∧ AlertEvent.dbCommit ∉
        check_alert_rule_events (some ⟨some (7/10), some (3/5)⟩)
          ⟨"r", "n", "m", "e", 1/20, "above"⟩ false
    ∧ AlertEvent.dbRollback ∈
        check_alert_rule_events (some ⟨some (7/10), some (3/5)⟩)
          ⟨"r", "n", "m", "e", 1/20, "above"⟩ false := by
  have htrig : check_alert_rule (some ⟨some (7/10), some (3/5)⟩)
      ⟨"r", "n", "m", "e", 1/20, "above"⟩ = true := by
    simp [check_alert_rule]
    rw [show |(7:ℚ)/10 - 3/5| = 7/10 - 3/5 by rw [abs_of_nonneg]; norm_num]
    norm_num
  have h := alert_email_scheduled_before_write
    (some ⟨some (7/10), some (3/5)⟩) ⟨"r", "n", "m", "e", 1/20, "above"⟩ false htrig
  exact ⟨h.1, (h.2 rfl).1, (h.2 rfl).2.1, (h.2 rfl).2.2⟩

/-! ## Lemmas about the per-trader scoring loop -/

lemma trader_score_entry_snd (data : List ℚ × List ℤ) :
    (trader_score_entry data).2 = scoreableBrier data := by
  rcases data with ⟨ps, os⟩
  rcases ps with _ | ⟨p, pt⟩
  · simp [trader_score_entry, scoreableBrier]
  · by_cases h2 : (p :: pt).length = os.length
    · have h2l : pt.length + 1 = os.length := by simpa using h2
      have hcond : ¬((p :: pt) = [] ∨ (p :: pt).length ≠ os.length) := by
        simp [h2]
      rcases hb : calculate_brier_score (p :: pt) os with _ | _ | b <;>
        simp [trader_score_entry, scoreableBrier, hcond, hb, h2l]
    · have h2l : ¬(pt.length + 1 = os.length) := by simpa using h2
      have hb : calculate_brier_score (p :: pt) os = BrierResult.validationError := by
        simp [calculate_brier_score, h2l]
      have hcond : (p :: pt) = [] ∨ (p :: pt).length ≠ os.length := Or.inr h2
      simp [trader_score_entry, scoreableBrier, hcond, hb, h2l]

lemma trader_score_entry_fst_of_no_data (data : List ℚ × List ℤ)
    (h : data.1 = []) :
    (trader_score_entry data).1 = 0 := by
  simp [trader_score_entry, h]

/-- C5 (amended): in `calculate_historical_rationality`, a trader with no
valid predictions is NOT excluded from the per-trader score mapping — they
appear with the default score `0.0` — but they are excluded from the overall
aggregate, which is the mean of the clamped Brier scores of the scoreable
traders only (`0` when no trader is scoreable). -/
theorem historical_rationality_default_and_aggregate (market_id : String)
    (now : ℤ) (trades : List Trade) (outcome? : Option ℤ) (raw : String → List ℚ)
    (hne : trades ≠ []) :
    (∀ t ∈ tradersOf trades, (get_trader_market_data outcome? (raw t)).1 = [] →
      (t, 0) ∈
        (calculate_historical_rationality market_id now trades outcome? raw).perTraderScore)
    ∧ ((calculate_historical_rationality market_id now trades outcome? raw).overallScore =
        if (tradersOf trades).filterMap
            (fun t => scoreableBrier (get_trader_market_data outcome? (raw t))) = []
        then 0
        else ((tradersOf trades).filterMap fun t =>
            scoreableBrier (get_trader_market_data outcome? (raw t))).sum /
          ((tradersOf trades).filterMap fun t =>
            scoreableBrier (get_trader_market_data outcome? (raw t))).length) := by
  constructor
  · intro t ht hdata
    simp only [calculate_historical_rationality, if_neg hne]
    have hzero : (t, (0 : ℚ)) =
        (t, (trader_score_entry (get_trader_market_data outcome? (raw t))).1) := by
      rw [trader_score_entry_fst_of_no_data _ hdata]
    rw [hzero]
    exact List.mem_map_of_mem
      (fun t => (t, (trader_score_entry (get_trader_market_data outcome? (raw t))).1)) ht
  · simp only [calculate_historical_rationality, if_neg hne]
    have hcong : ((tradersOf trades).filterMap fun t =>
          (trader_score_entry (get_trader_market_data outcome? (raw t))).2) =
        (tradersOf trades).filterMap fun t =>
          scoreableBrier (get_trader_market_data outcome? (raw t)) := by
      apply List.filterMap_congr
      intro t _
      exact trader_score_entry_snd _
    rw [hcong]

/-- C5 witness: trader "b" has no valid predictions and appears in the
mapping with the default score `0`, while the aggregate equals the mean over
the scoreable traders only. -/
theorem historical_rationality_default_and_aggregate_case :
    ("b", (0 : ℚ)) ∈
      (calculate_historical_rationality "m" 0
        [⟨"a", 1, 1, "YES", 0⟩, ⟨"b", 1, 1, "YES", 0⟩] (some 1)
        (fun t => if t = "a" then [4/5] else [])).perTraderScore
    ∧ (calculate_historical_rationality "m" 0
        [⟨"a", 1, 1, "YES", 0⟩, ⟨"b", 1, 1, "YES", 0⟩] (some 1)
        (fun t => if t = "a" then [4/5] else [])).overallScore =
      (if (tradersOf [⟨"a", 1, 1, "YES", 0⟩, ⟨"b", 1, 1, "YES", 0⟩]).filterMap
          (fun t => scoreableBrier
            (get_trader_market_data (some 1) (if t = "a" then [4/5] else []))) = []
       then 0
       else ((tradersOf [⟨"a", 1, 1, "YES", 0⟩, ⟨"b", 1, 1, "YES", 0⟩]).filterMap
          fun t => scoreableBrier
            (get_trader_market_data (some 1) (if t = "a" then [4/5] else []))).sum /
        ((tradersOf [⟨"a", 1, 1, "YES", 0⟩, ⟨"b", 1, 1, "YES", 0⟩]).filterMap
          fun t => scoreableBrier
            (get_trader_market_data (some 1) (if t = "a" then [4/5] else []))).length) := by
  have h := historical_rationality_default_and_aggregate "m" 0
    [⟨"a", 1, 1, "YES", 0⟩, ⟨"b", 1, 1, "YES", 0⟩] (some 1)
    (fun t => if t = "a" then [4/5] else []) (by decide)
  exact ⟨h.1 "b" (by decide) (by decide), h.2⟩

/-- C5 counterexample: a trader with no valid predictions is assigned score
`0.0` in the per-trader mapping rather than being excluded from it. -/
theorem historical_rationality_zero_not_excluded :
    (calculate_historical_rationality "m" 0 [⟨"a", 1/2, 1, "YES", 0⟩] none
      (fun _ => [])).perTraderScore = [("a", 0)]
    ∧ (get_trader_market_data none ((fun _ => ([] : List ℚ)) "a")).1 = [] := by
  constructor
  · decide
  · decide

/-! ## Lemmas about best bid / best ask extraction -/

lemma foldl_max_mem (x : ℚ) (xs : List ℚ) : xs.foldl max x ∈ x :: xs := by
  induction xs generalizing x with
  | nil => simp
  | cons y ys ih =>
    have h := ih (max x y)
    rcases List.mem_cons.mp h with h1 | h1
    · rcases max_choice x y with hm | hm
      · rw [List.foldl_cons, h1, hm]
        exact List.mem_cons_self _ _
      · rw [List.foldl_cons, h1, hm]
        exact List.mem_cons_of_mem _ (List.mem_cons_self _ _)
    · exact List.mem_cons_of_mem _ (List.mem_cons_of_mem _ h1)

lemma le_foldl_max (x : ℚ) (xs : List ℚ) : ∀ q ∈ x :: xs, q ≤ xs.foldl max x := by
  induction xs generalizing x with
  | nil =>
    intro q hq
    rw [List.mem_singleton] at hq
    subst hq
    exact le_rfl
  | cons y ys ih =>
    intro q hq
    rw [List.foldl_cons]
    have hhead : max x y ≤ ys.foldl max (max x y) :=
      ih (max x y) (max x y) (List.mem_cons_self _ _)
    rcases List.mem_cons.mp hq with h1 | hq2
    · subst h1
      exact le_trans (le_max_left _ _) hhead
    · rcases List.mem_cons.mp hq2 with h1 | hq3
      · subst h1
        exact le_trans (le_max_right _ _) hhead
      · exact ih (max x y) q (List.mem_cons_of_mem _ hq3)

lemma foldl_min_mem (x : ℚ) (xs : List ℚ) : xs.foldl min x ∈ x :: xs := by
  induction xs generalizing x with
  | nil => simp
  | cons y ys ih =>
    have h := ih (min x y)
    rcases List.mem_cons.mp h with h1 | h1
    · rcases min_choice x y with hm | hm
      · rw [List.foldl_cons, h1, hm]
        exact List.mem_cons_self _ _
      · rw [List.foldl_cons, h1, hm]
        exact List.mem_cons_of_mem _ (List.mem_cons_self _ _)
    · exact List.mem_cons_of_mem _ (List.mem_cons_of_mem _ h1)

lemma foldl_min_le (x : ℚ) (xs : List ℚ) : ∀ q ∈ x :: xs, xs.foldl min x ≤ q := by
  induction xs generalizing x with
  | nil =>
    intro q hq
    rw [List.mem_singleton] at hq
    subst hq
    exact le_rfl
  | cons y ys ih =>
    intro q hq
    rw [List.foldl_cons]
    have hhead : ys.foldl min (min x y) ≤ min x y :=
      ih (min x y) (min x y) (List.mem_cons_self _ _)
    rcases List.mem_cons.mp hq with h1 | hq2
    · subst h1
      exact le_trans hhead (min_le_left _ _)
    · rcases List.mem_cons.mp hq2 with h1 | hq3
      · subst h1
        exact le_trans hhead (min_le_right _ _)
      · exact ih (min x y) q (List.mem_cons_of_mem _ hq3)

lemma best_bid_price_spec {bids : List Level} {bb : ℚ}
    (h : best_bid_price bids = some bb) :
    bb ∈ numeric_prices bids ∧ ∀ q ∈ numeric_prices bids, q ≤ bb := by
  rcases hnp : numeric_prices bids with _ | ⟨x, xs⟩
  · rw [best_bid_price, hnp] at h
    exact absurd h (by simp)
  · rw [best_bid_price, hnp, Option.some_inj] at h
    rw [← h]
    exact ⟨foldl_max_mem x xs, le_foldl_max x xs⟩

lemma best_ask_price_spec {asks : List Level} {ba : ℚ}
    (h : best_ask_price asks = some ba) :
    ba ∈ numeric_prices asks ∧ ∀ q ∈ numeric_prices asks, ba ≤ q := by
  rcases hnp : numeric_prices asks with _ | ⟨x, xs⟩
  · rw [best_ask_price, hnp] at h
    exact absurd h (by simp)
  · rw [best_ask_price, hnp, Option.some_inj] at h
    rw [← h]
    exact ⟨foldl_min_mem x xs, foldl_min_le x xs⟩

lemma numeric_price_in_unit {l : List Level} (hl : pricesWithinUnit l) {q : ℚ}
    (hq : q ∈ numeric_prices l) : 0 ≤ q ∧ q ≤ 1 := by
  rcases List.mem_filterMap.mp hq with ⟨lv, hlv, hmatch⟩
  have hok := hl lv hlv
  rcases hp : lv.price with _ | pn
  · rw [hp] at hmatch
    exact absurd hmatch (by simp)
  · cases pn with
    | num q2 =>
      rw [hp, Option.some_inj] at hmatch
      rw [priceOk, hp] at hok
      simp only [decide_eq_true_eq] at hok
      exact hmatch ▸ hok
    | numStr q2 =>
      rw [hp] at hmatch
      exact absurd hmatch (by simp)
    | bad =>
      rw [hp] at hmatch
      exact absurd hmatch (by simp)

lemma calculate_mid_price_unit {bids asks : List Level}
    (hb : pricesWithinUnit bids) (ha : pricesWithinUnit asks) :
    resultInUnitOrNaN (calculate_mid_price bids asks) := by
  rw [calculate_mid_price]
  split
  · trivial
  · rcases hbb : best_bid_price bids with _ | bb
    · rcases hba : best_ask_price asks with _ | ba <;> trivial
    · rcases hba : best_ask_price asks with _ | ba
      · trivial
      · change resultInUnitOrNaN (if bb = 0 then none else some ((bb + ba) / 2))
        by_cases hz : bb = 0
        · rw [if_pos hz]
          trivial
        · rw [if_neg hz]
          have h1 := numeric_price_in_unit hb (best_bid_price_spec hbb).1
          have h2 := numeric_price_in_unit ha (best_ask_price_spec hba).1
          show 0 ≤ (bb + ba) / 2 ∧ (bb + ba) / 2 ≤ 1
          constructor
          · have : (0 : ℚ) ≤ bb + ba := add_nonneg h1.1 h2.1
            linarith
          · have : bb + ba ≤ 2 := by linarith [h1.2, h2.2]
            linarith

/-- C1 (amended): whenever the total matched volume is nonzero,
`calculate_true_price` returns the VWAP clamped into `[0, 1]` (never NaN);
on the zero-volume path it returns the UNCLAMPED mid-price fallback, which
is only guaranteed to lie in `[0, 1]` or be NaN when every price in the book
lies in `[0, 1]` — for malformed books with out-of-range prices the fallback
can leave `[0, 1]`. -/
theorem calculate_true_price_range (bids asks : List Level) :
    (total_volume bids asks ≠ 0 →
      calculate_true_price bids asks ≠ none
      ∧ resultInUnitOrNaN (calculate_true_price bids asks))
    ∧ (pricesWithinUnit bids → pricesWithinUnit asks →
      resultInUnitOrNaN (calculate_true_price bids asks)) := by
  have hclamp : ∀ v : ℚ, 0 ≤ max 0 (min 1 v) ∧ max 0 (min 1 v) ≤ 1 := fun v =>
    ⟨le_max_left 0 _, max_le (by norm_num) (min_le_left 1 v)⟩
  constructor
  · intro htv
    rw [calculate_true_price, if_neg htv]
    exact ⟨Option.some_ne_none _, hclamp _⟩
  · intro hb ha
    by_cases htv : total_volume bids asks = 0
    · rw [calculate_true_price, if_pos htv]
      exact calculate_mid_price_unit hb ha
    · rw [calculate_true_price, if_neg htv]
      exact hclamp _

/-- C1 witness: the spec scenario book (bid 0.60 size 100, ask 0.62 size
100) has positive matched volume, so the true price is a non-NaN value in
`[0, 1]`; and since all its prices lie in `[0, 1]`, the range conclusion
also follows from the well-formedness conjunct. -/
theorem calculate_true_price_range_case :
    (calculate_true_price
        [⟨some (PyNum.num (3/5)), some (PyNum.num 100)⟩]
        [⟨some (PyNum.num (31/50)), some (PyNum.num 100)⟩] ≠ none
      ∧ resultInUnitOrNaN (calculate_true_price
        [⟨some (PyNum.num (3/5)), some (PyNum.num 100)⟩]
        [⟨some (PyNum.num (31/50)), some (PyNum.num 100)⟩]))
    ∧ resultInUnitOrNaN (calculate_true_price
        [⟨some (PyNum.num (3/5)), some (PyNum.num 100)⟩]
        [⟨some (PyNum.num (31/50)), some (PyNum.num 100)⟩]) :=
  ⟨(calculate_true_price_range _ _).1
      (by simp [total_volume, book_terms, level_term, float_of]),
    (calculate_true_price_range _ _).2
      (by intro lv hlv
          rw [List.mem_singleton] at hlv
          subst hlv
          rw [priceOk]
          norm_num)
      (by intro lv hlv
          rw [List.mem_singleton] at hlv
          subst hlv
          rw [priceOk]
          norm_num)⟩

/-- C1 counterexample: the malformed book with a bid price 3 and an ask
price 5 (no sizes) has zero matched volume, and the unclamped mid-price
fallback returns 4 — a value greater than 1 and not NaN, refuting the claim
that the result is always in `[0, 1]` or NaN. -/
theorem calculate_true_price_out_of_range :
    calculate_true_price [⟨some (PyNum.num 3), none⟩] [⟨some (PyNum.num 5), none⟩] =
      some 4
    ∧ ¬ resultInUnitOrNaN (some (4 : ℚ)) := by
  constructor
  · simp [calculate_true_price, total_volume, weighted_sum, book_terms, level_term,
      float_of, calculate_mid_price, best_bid_price, best_ask_price, numeric_prices]
    norm_num
  · intro h
    have := h.2
    norm_num at this

/-- C2 (amended): with an empty bid side or an empty ask side,
`calculate_true_price` agrees with `calculate_mid_price` (both are then NaN)
exactly when the total matched volume is zero; when the non-empty side still
carries positive matched volume, the true price is its one-sided clamped
VWAP while the mid price is NaN, and the two disagree. -/
theorem true_price_empty_side (bids asks : List Level)
    (h : bids = [] ∨ asks = []) :
    (calculate_true_price bids asks = calculate_mid_price bids asks ↔
      total_volume bids asks = 0) := by
  constructor
  · intro heq
    by_contra htv
    rw [calculate_true_price, if_neg htv] at heq
    rw [calculate_mid_price, if_pos h] at heq
    exact Option.noConfusion heq
  · intro htv
    rw [calculate_true_price, if_pos htv]

/-- C2 witness: on the fully empty book both sides are empty and the total
volume is zero, so the two functions agree (both NaN). -/
theorem true_price_empty_side_case :
    calculate_true_price [] [] = calculate_mid_price [] [] :=
  (true_price_empty_side [] [] (Or.inl rfl)).mpr (by decide)

/-- C2 counterexample: with empty bids but an ask of price 0.5 and size 100,
`calculate_true_price` returns the one-sided VWAP 0.5 while
`calculate_mid_price` returns NaN — the two differ, refuting the claim that
they agree whenever one side is empty. -/
theorem true_price_empty_bids_ne_mid_price :
    calculate_true_price [] [⟨some (PyNum.num (1/2)), some (PyNum.num 100)⟩] =
      some (1/2)
    ∧ calculate_mid_price [] [⟨some (PyNum.num (1/2)), some (PyNum.num 100)⟩] =
      none := by
  constructor
  · simp [calculate_true_price, total_volume, weighted_sum, book_terms, level_term,
      float_of, calculate_mid_price]
    norm_num
  · rfl

/-- C7 (amended): `calculate_mid_price` returns NaN when either side is
empty or has no numeric price, and `best_bid_price` / `best_ask_price` are
the maximum and minimum numeric prices of their sides; but when the best bid
price is exactly 0 the function returns NaN as well, so a book whose sides
both contain a valid numeric price is only guaranteed the midpoint when its
maximum bid price is nonzero. -/
theorem calculate_mid_price_spec (bids asks : List Level) :
    (bids = [] ∨ asks = [] → calculate_mid_price bids asks = none)
    ∧ (numeric_prices bids = [] ∨ numeric_prices asks = [] →
        calculate_mid_price bids asks = none)
    ∧ (∀ bb, best_bid_price bids = some bb →
        bb ∈ numeric_prices bids ∧ ∀ q ∈ numeric_prices bids, q ≤ bb)
    ∧ (∀ ba, best_ask_price asks = some ba →
        ba ∈ numeric_prices asks ∧ ∀ q ∈ numeric_prices asks, ba ≤ q)
    ∧ (∀ bb ba, bids ≠ [] → asks ≠ [] → best_bid_price bids = some bb →
        best_ask_price asks = some ba → bb ≠ 0 →
        calculate_mid_price bids asks = some ((bb + ba) / 2)) := by
  refine ⟨?_, ?_, ?_, ?_, ?_⟩
  · intro h
    rw [calculate_mid_price, if_pos h]
  · intro h
    rw [calculate_mid_price]
    split
    · rfl
    · rcases h with h | h
      · have hbb : best_bid_price bids = none := by rw [best_bid_price, h]
        rw [hbb]
      · have hba : best_ask_price asks = none := by rw [best_ask_price, h]
        rw [hba]
        rcases best_bid_price bids with _ | bb <;> rfl
  · intro bb hbb
    exact best_bid_price_spec hbb
  · intro ba hba
    exact best_ask_price_spec hba
  · intro bb ba hbids hasks hbb hba hz
    rw [calculate_mid_price, if_neg (by simp [hbids, hasks]), hbb, hba]
    change (if bb = 0 then none else some ((bb + ba) / 2)) = some ((bb + ba) / 2)
    exact if_neg hz

/-- C7 witness: the spec scenario book (bid 0.60, ask 0.62) has nonzero best
bid, so the mid price is the midpoint 0.61. -/
theorem calculate_mid_price_spec_case :
    calculate_mid_price
        [⟨some (PyNum.num (3/5)), some (PyNum.num 100)⟩]
        [⟨some (PyNum.num (31/50)), some (PyNum.num 100)⟩] =
      some ((3/5 + 31/50) / 2) :=
  (calculate_mid_price_spec _ _).2.2.2.2 (3/5) (31/50)
    (by decide) (by decide) rfl rfl (by norm_num)

/-- C7 counterexample: a book whose bid side contains the valid numeric
price 0 and whose ask side contains the valid numeric price 0.5 yields NaN,
not the midpoint 0.25 — the `best_bid_price == 0.0` guard refutes the claim
that both sides containing a valid numeric price suffices for a non-NaN
midpoint. -/
theorem calculate_mid_price_nan_on_zero_bid :
    calculate_mid_price [⟨some (PyNum.num 0), none⟩] [⟨some (PyNum.num (1/2)), none⟩] =
      none
    ∧ numeric_prices [⟨some (PyNum.num 0), none⟩] ≠ []
    ∧ numeric_prices [⟨some (PyNum.num (1/2)), none⟩] ≠ [] := by
  refine ⟨by decide, by decide, by decide⟩

end Rationality
